import Mathlib

/-!
Verification development for the false-breakout signal bot.

Shallow embedding notes:
* Python floats are modelled by `ℚ`; `math.isfinite` checks are trivially
  true in this model and noted where they occur in the source.
* pandas series are modelled by `List Candle` (row position = DataFrame
  index, which `ohlcv_to_df` resets to `0..n-1`); a rolling mean with
  `min_periods = window` yields `Option ℚ` (`none` models `NaN`).
* Python dicts are association lists; `dict.__setitem__` is `setKV`
  (replace in place or append), `dict.get` is `List.lookup`.
-/

/-- Trade direction, the `"long"`/`"short"` strings of the source. -/
inductive Side where
  | long
  | short
deriving DecidableEq

/-- Directional bias, the `"up"`/`"down"` strings of the source. -/
inductive Bias where
  | up
  | down
deriving DecidableEq

/-- Model of `core/strategy/models.py` `Trend`. -/
structure Trend where
  d1 : Bias
  h4 : Bias
deriving DecidableEq

/-- One OHLCV row of a normalized DataFrame (`ts, o, h, l, c, v`). -/
structure Candle where
  ts : ℤ
  o : ℚ
  h : ℚ
  l : ℚ
  c : ℚ
  v : ℚ
deriving DecidableEq

/-- The level label string `f"{label}@{day.date()}"` of `levels.py`,
modelled structurally: which extreme, whether the level is from age 1
(the `prev_` mark), and the UTC day (ms timestamp floor-divided by one
day) that the date part renders. -/
structure Label where
  isHigh : Bool
  isPrevDay : Bool
  day : ℤ
deriving DecidableEq

/-- Model of `core/strategy/models.py` `LevelCandidate`. -/
structure LevelCandidate where
  value : ℚ
  side : Side
  ts : ℤ
  label : Label
  age : ℕ
deriving DecidableEq

/-- Model of `core/strategy/models.py` `BreakoutInfo`. -/
structure BreakoutInfo where
  side : Side
  level : ℚ
  level_source : Label
  level_age : ℕ
  idx : ℕ
  ts : ℤ
  next_idx : Option ℕ
  next_open : Option ℚ
  break_pct : ℚ
  close_back_pct : ℚ
  candle_open : ℚ
  candle_high : ℚ
  candle_low : ℚ
  candle_close : ℚ
  volume : ℚ
  volume_ma : ℚ
  wick_price : ℚ
deriving DecidableEq

/-- The `meta` dict built by `planner.py`, with its exact keys. -/
structure Meta where
  level : ℚ
  level_source : Label
  break_pct : ℚ
  close_back_pct : ℚ
  volume_ratio : Option ℚ
  candle_ts : ℤ
deriving DecidableEq

/-- Model of `core/strategy/models.py` `PlannedTrade`. -/
structure PlannedTrade where
  side : Side
  entry : ℚ
  sl : ℚ
  tp : ℚ
  reason : String := "ok"
  meta : Meta
deriving DecidableEq

/-- Model of `PlannedTrade.risk_amount` from `models.py`. -/
def PlannedTrade.risk_amount (t : PlannedTrade) : ℚ :=
  match t.side with
  | Side.long => t.entry - t.sl
  | Side.short => t.sl - t.entry

/-! ## TradePlanner (`core/strategy/planner.py`) -/

/-- Entry mode: `"level_offset"` selects the offset entry; any other
value of `ENTRY_MODE` (including the default `"next_open"`) selects the
next-open entry. -/
inductive EntryMode where
  | level_offset
  | next_open
deriving DecidableEq

/-- Stop mode: `"level"` and `"level_pct"` both select the level stop;
any other value of `STOP_MODE` (including the default `"wick"`) selects
the wick stop. -/
inductive StopMode where
  | levelStop
  | wick
deriving DecidableEq

/-- The configuration options read by `plan_trade`. -/
structure PlanCfg where
  entryMode : EntryMode
  entryUnderfillPct : ℚ
  stopMode : StopMode
  stopWickTicks : ℤ
  stopLevelPct : ℚ
  rr : ℚ
deriving DecidableEq

/-- The raw entry of `plan_trade` before the safety correction. -/
def planEntryRaw (cfg : PlanCfg) (b : BreakoutInfo) : ℚ :=
  match cfg.entryMode with
  | EntryMode.level_offset =>
    let offset := max 0 cfg.entryUnderfillPct
    match b.side with
    | Side.long => b.level * (1 + offset)
    | Side.short => b.level * (1 - offset)
  | EntryMode.next_open => b.next_open.getD b.candle_close

/-- The tick fallback chain of `plan_trade`: `tick_size or 0.0`, then
`level * 0.0001`, then `0.01`. -/
def resolveTick (b : BreakoutInfo) (tick_size : ℚ) : ℚ :=
  if tick_size ≤ 0 then
    let t := b.level * (1 / 10000)
    if t ≤ 0 then (1 / 100 : ℚ) else t
  else tick_size

/-- The raw stop of `plan_trade`. -/
def planStopRaw (cfg : PlanCfg) (b : BreakoutInfo) (tick : ℚ) : ℚ :=
  let ticks : ℤ := max 0 cfg.stopWickTicks
  match cfg.stopMode with
  | StopMode.levelStop =>
    let pct := max 0 cfg.stopLevelPct
    match b.side with
    | Side.long => b.level * (1 - pct)
    | Side.short => b.level * (1 + pct)
  | StopMode.wick =>
    match b.side with
    | Side.long => b.wick_price - (ticks : ℚ) * tick
    | Side.short => b.wick_price + (ticks : ℚ) * tick

/-- The safety correction of `plan_trade`: clamp the entry to the level,
then push it one tick past the stop if still on the wrong side. -/
def adjustEntry (b : BreakoutInfo) (entry sl tick : ℚ) : ℚ :=
  match b.side with
  | Side.long =>
    if entry ≤ sl then
      let e := max entry b.level
      if e ≤ sl then sl + tick else e
    else entry
  | Side.short =>
    if entry ≥ sl then
      let e := min entry b.level
      if e ≥ sl then sl - tick else e
    else entry

/-- Model of `plan_trade` from `core/strategy/planner.py`.  Over `ℚ` the source's
`not math.isfinite(risk)` disjunct of the rejection guard is vacuous, so
only `risk <= 0` remains. -/
def plan_trade (cfg : PlanCfg) (b : BreakoutInfo) (tick_size : ℚ) : Option PlannedTrade :=
  let entry0 := planEntryRaw cfg b
  let tick := resolveTick b tick_size
  let sl := planStopRaw cfg b tick
  let entry := adjustEntry b entry0 sl tick
  let risk := match b.side with
    | Side.long => entry - sl
    | Side.short => sl - entry
  if risk ≤ 0 then none
  else
    let rr := max (1 / 10) cfg.rr
    let tp := match b.side with
      | Side.long => entry + rr * risk
      | Side.short => entry - rr * risk
    let volume_ratio : Option ℚ :=
      if b.volume_ma = 0 then none else some (b.volume / b.volume_ma)
    some { side := b.side
           entry := entry
           sl := sl
           tp := tp
           meta := { level := b.level
                     level_source := b.level_source
                     break_pct := b.break_pct
                     close_back_pct := b.close_back_pct
                     volume_ratio := volume_ratio
                     candle_ts := b.ts } }

/-! ## LevelCollector (`core/strategy/levels.py`) -/

/-- Placeholder row used for the (guarded, never reached) out-of-range
DataFrame access. -/
def dummyCandle : Candle := { ts := 0, o := 0, h := 0, l := 0, c := 0, v := 0 }

/-- One day in ms, used to turn a ms timestamp into the UTC day that
`pd.to_datetime(ts, unit="ms").date()` renders in the label. -/
def msPerDay : ℤ := 86400000

/-- The loop body of `collect_level_candidates`: `k` counts iterations
(the first iteration `k = 0` is row `i = day_idx - 1`), `m` is the number
of iterations left.  Each iteration emits the day's high (side short)
then the day's low (side long). -/
def collectAux (d1 : List Candle) (day_idx : ℕ) : ℕ → ℕ → List LevelCandidate
  | _, 0 => []
  | k, m + 1 =>
    let i := day_idx - 1 - k
    let age := day_idx - i
    let row := d1.getD i dummyCandle
    { value := row.h, side := Side.short, ts := row.ts
      label := { isHigh := true, isPrevDay := decide (age = 1), day := Int.fdiv row.ts msPerDay }
      age := age } ::
    { value := row.l, side := Side.long, ts := row.ts
      label := { isHigh := false, isPrevDay := decide (age = 1), day := Int.fdiv row.ts msPerDay }
      age := age } ::
    collectAux d1 day_idx (k + 1) m

/-- Model of `collect_level_candidates` from `core/strategy/levels.py`:
`start = max(0, day_idx - lookback)` (here `ℕ` subtraction), and the loop
runs `i = day_idx - 1, ..., start`, i.e. `day_idx - start` iterations. -/
def collect_level_candidates (d1 : List Candle) (day_idx lookback : ℕ) : List LevelCandidate :=
  if day_idx = 0 ∨ d1.length ≤ day_idx then []
  else collectAux d1 day_idx 0 (day_idx - (day_idx - lookback))

/-! ## TrendClassifier (`core/strategy/trend.py`, `utils.py`) -/

/-- Last value of `sma(series, length)` from `core/strategy/utils.py`:
`length = max(1, length)`; for `length ≤ 1` the series itself, otherwise
`rolling(length, min_periods=length).mean()` whose last value is `NaN`
(`none`) when the series is shorter than the window. -/
def smaLast (closes : List ℚ) (w : ℕ) : Option ℚ :=
  let n := max 1 w
  if n ≤ 1 then closes.getLast?
  else if closes.length < n then none
  else some (((closes.drop (closes.length - n)).sum) / (n : ℚ))

/-- The trend windows `D1_SMA`, `H4_FAST`, `H4_SLOW`. -/
structure TrendCfg where
  d1Sma : ℕ
  h4Fast : ℕ
  h4Slow : ℕ
deriving DecidableEq

/-- Model of `detect_trend` from `core/strategy/trend.py`, on the two close-price
series.  `none` models the IndexError the source raises on an empty
series (`iloc[-1]`); otherwise the `NaN`-guarded substitution of the last
close for an undefined SMA is the `Option.getD`. -/
def detect_trend (cfg : TrendCfg) (d1_close h4_close : List ℚ) : Option Trend :=
  match d1_close.getLast?, h4_close.getLast? with
  | some last_close, some lc4 =>
    let last_sma := (smaLast d1_close cfg.d1Sma).getD last_close
    let d1_trend := if last_close ≥ last_sma then Bias.up else Bias.down
    let last_fast := (smaLast h4_close cfg.h4Fast).getD lc4
    let last_slow := (smaLast h4_close cfg.h4Slow).getD lc4
    let h4_trend := if last_fast ≥ last_slow then Bias.up else Bias.down
    some { d1 := d1_trend, h4 := h4_trend }
  | _, _ => none

/-- Last value of the legacy `_sma` from `core/strategy.py`: identical to
`utils.sma` except that the `max(1, ...)` clamp is absent (for
`length ≤ 1` both return the series itself). -/
def legacy_smaLast (closes : List ℚ) (w : ℕ) : Option ℚ :=
  if w ≤ 1 then closes.getLast?
  else if closes.length < w then none
  else some (((closes.drop (closes.length - w)).sum) / (w : ℚ))

/-- Model of `detect_trend` from the legacy `core/strategy.py` (the module the
backtest's call signatures match), textually identical to the package
version except for using `_sma`. -/
def legacy_detect_trend (cfg : TrendCfg) (d1_close h4_close : List ℚ) : Option Trend :=
  match d1_close.getLast?, h4_close.getLast? with
  | some last_close, some lc4 =>
    let last_sma := (legacy_smaLast d1_close cfg.d1Sma).getD last_close
    let d1_trend := if last_close ≥ last_sma then Bias.up else Bias.down
    let last_fast := (legacy_smaLast h4_close cfg.h4Fast).getD lc4
    let last_slow := (legacy_smaLast h4_close cfg.h4Slow).getD lc4
    let h4_trend := if last_fast ≥ last_slow then Bias.up else Bias.down
    some { d1 := d1_trend, h4 := h4_trend }
  | _, _ => none

/-! ## BreakoutScanner (`core/strategy/breakouts.py`) -/

/-- The scanner configuration options. -/
structure ScanCfg where
  penetrationMinPct : ℚ
  penetrationMaxPct : ℚ
  closeBackMaxPct : ℚ
  volumeMaxRatio : ℚ
  volumeMaLength : ℕ
deriving DecidableEq

/-- Model of `volume_ma` from `utils.py` evaluated at row `i` of the full series:
`rolling(max(1, length), min_periods=same).mean()`, `none` for the `NaN`
positions before the window fills and for out-of-range rows. -/
def volume_ma_at (vs : List ℚ) (len : ℕ) (i : ℕ) : Option ℚ :=
  let n := max 1 len
  if i + 1 < n ∨ vs.length ≤ i then none
  else some ((((vs.drop (i + 1 - n)).take n).sum) / (n : ℚ))

/-- Largest timestamp of a series (`h1_df["ts"].max()`; the empty case is
unreachable behind the source's empty-frame guard). -/
def maxTs : List Candle → ℤ
  | [] => 0
  | c :: rest => rest.foldl (fun m x => max m x.ts) c.ts

/-- The `[start_ts, end_ts)` mask of `find_false_breakouts_for_day`; the
pairs keep the original row positions, as the pandas mask keeps the
original index. -/
def dayWindow (h1 : List Candle) (start_ts : ℤ) (end_ts : Option ℤ) : List (ℕ × Candle) :=
  let endv := end_ts.getD (maxTs h1 + 1)
  h1.enum.filter (fun p => decide (start_ts ≤ p.2.ts) && decide (p.2.ts < endv))

/-- Model of `_find_breakout_for_level` from `core/strategy/breakouts.py`,
scanning the day window in order; `volMA i` is the volume moving average
at original row `i`. -/
def findBreakoutForLevel (cfg : ScanCfg) (lv : LevelCandidate) (volMA : ℕ → Option ℚ) :
    List (ℕ × Candle) → Option BreakoutInfo
  | [] => none
  | (i, row) :: rest =>
    let skip := findBreakoutForLevel cfg lv volMA rest
    match volMA i with
    | none => skip
    | some ma =>
      if ma ≤ 0 then skip
      else if row.v > cfg.volumeMaxRatio * ma then skip
      else
        let pen := match lv.side with
          | Side.long => if lv.value = 0 then 0 else (lv.value - row.l) / lv.value
          | Side.short => if lv.value = 0 then 0 else (row.h - lv.value) / lv.value
        let close_back := match lv.side with
          | Side.long => if lv.value = 0 then 0 else (row.c - lv.value) / lv.value
          | Side.short => if lv.value = 0 then 0 else (lv.value - row.c) / lv.value
        let closed_inside : Bool := match lv.side with
          | Side.long => decide (lv.value ≤ row.c)
          | Side.short => decide (row.c ≤ lv.value)
        let wick_price := match lv.side with
          | Side.long => row.l
          | Side.short => row.h
        if pen < cfg.penetrationMinPct ∨ pen > cfg.penetrationMaxPct then skip
        else if closed_inside = false then skip
        else if close_back < 0 ∨ close_back > cfg.closeBackMaxPct then skip
        else
          some { side := lv.side
                 level := lv.value
                 level_source := lv.label
                 level_age := lv.age
                 idx := i
                 ts := row.ts
                 next_idx := rest.head?.map (fun p => p.1)
                 next_open := rest.head?.map (fun p => p.2.o)
                 break_pct := pen
                 close_back_pct := close_back
                 candle_open := row.o
                 candle_high := row.h
                 candle_low := row.l
                 candle_close := row.c
                 volume := row.v
                 volume_ma := ma
                 wick_price := wick_price }

/-- Whether `allowed_side` lets a level through: a falsy `allowed_side`
(`None`) disables the filter. -/
def sideOk (allowed : Option Side) (s : Side) : Bool :=
  match allowed with
  | none => true
  | some a => decide (s = a)

/-- The per-level collection loop of `find_false_breakouts_for_day`,
before sorting. -/
def breakoutsPerLevel (cfg : ScanCfg) (h1 : List Candle) (levels : List LevelCandidate)
    (start_ts : ℤ) (end_ts : Option ℤ) (allowed : Option Side) : List BreakoutInfo :=
  let window := dayWindow h1 start_ts end_ts
  let volMA := volume_ma_at (h1.map (fun c => c.v)) cfg.volumeMaLength
  levels.filterMap (fun lv =>
    if sideOk allowed lv.side then findBreakoutForLevel cfg lv volMA window else none)

/-- The sort key order of `results.sort(key=lambda b: (b.ts, b.level_age))`. -/
def bkLE (a b : BreakoutInfo) : Prop :=
  a.ts < b.ts ∨ (a.ts = b.ts ∧ a.level_age ≤ b.level_age)

instance : DecidableRel bkLE := fun a b => by
  unfold bkLE
  infer_instance

instance : IsTotal BreakoutInfo bkLE where
  total a b := by
    unfold bkLE
    rcases lt_trichotomy a.ts b.ts with h | h | h
    · exact Or.inl (Or.inl h)
    · rcases Nat.le_total a.level_age b.level_age with h' | h'
      · exact Or.inl (Or.inr ⟨h, h'⟩)
      · exact Or.inr (Or.inr ⟨h.symm, h'⟩)
    · exact Or.inr (Or.inl h)

instance : IsTrans BreakoutInfo bkLE where
  trans a b c hab hbc := by
    unfold bkLE at hab hbc ⊢
    rcases hab with h1 | ⟨h1, h1'⟩ <;> rcases hbc with h2 | ⟨h2, h2'⟩
    · exact Or.inl (h1.trans h2)
    · exact Or.inl (h2 ▸ h1)
    · exact Or.inl (h1 ▸ h2)
    · exact Or.inr ⟨h1.trans h2, h1'.trans h2'⟩

/-- Model of `find_false_breakouts_for_day` from `core/strategy/breakouts.py`. -/
def find_false_breakouts_for_day (cfg : ScanCfg) (h1 : List Candle)
    (levels : List LevelCandidate) (start_ts : ℤ) (end_ts : Option ℤ)
    (allowed : Option Side) : List BreakoutInfo :=
  if h1 = [] ∨ levels = [] then []
  else if dayWindow h1 start_ts end_ts = [] then []
  else List.insertionSort bkLE (breakoutsPerLevel cfg h1 levels start_ts end_ts allowed)

/-! ## ReplayHarness detection (`core/backtest.py`) -/

/-- The dict returned by `_first_fakeout_in_day`. -/
structure FakeoutInfo where
  side : Side
  idx_break : ℕ
  idx_back : ℕ
  candles_back : ℕ
  pen_atr : ℚ
deriving DecidableEq

/-- Minimum of the lows of a day-window segment (`seg["l"].min()`; the
empty case is unreachable, the segment always contains the break bar). -/
def segMinLow : List (ℕ × Candle) → ℚ
  | [] => 0
  | p :: rest => rest.foldl (fun m q => min m q.2.l) p.2.l

/-- Maximum of the highs of a day-window segment (`seg["h"].max()`). -/
def segMaxHigh : List (ℕ × Candle) → ℚ
  | [] => 0
  | p :: rest => rest.foldl (fun m q => max m q.2.h) p.2.h

/-- Placeholder pair for guarded out-of-range positional access. -/
def dummyRow : ℕ × Candle := (0, dummyCandle)

/-- Model of `_first_fakeout_in_day` from `core/backtest.py`: find the first bar
`B0` that pierces the level (`low < level` for long, `high > level` for
short), then look at most `max_back` bars further for a close back inside;
a pierce without a close-back is skipped and the outer scan continues.
`atr i` is `atr_series.loc[i]` (`none` = `NaN`, which fails the
`atr > 0` test and yields `pen_atr = 0`). -/
def first_fakeout_in_day (h1_day : List (ℕ × Candle)) (level : ℚ) (side : Side)
    (max_back : ℕ) (atr : ℕ → Option ℚ) : Option FakeoutInfo :=
  let n := h1_day.length
  (List.range n).findSome? (fun p =>
    let row := h1_day.getD p dummyRow
    let broke : Bool := match side with
      | Side.long => decide (row.2.l < level)
      | Side.short => decide (row.2.h > level)
    if broke = false then none
    else
      let stop := min (p + 1 + max_back) n
      let back? := (List.range' (p + 1) (stop - (p + 1))).find? (fun p2 =>
        let c := (h1_day.getD p2 dummyRow).2.c
        match side with
        | Side.long => decide (c ≥ level)
        | Side.short => decide (c ≤ level))
      match back? with
      | none => none
      | some p2 =>
        let seg := (h1_day.drop p).take (p2 - p + 1)
        let pen_abs := match side with
          | Side.long => level - segMinLow seg
          | Side.short => segMaxHigh seg - level
        let a := (atr row.1).getD 0
        let pen_atr := if a > 0 then pen_abs / a else 0
        some { side := side
               idx_break := row.1
               idx_back := (h1_day.getD p2 dummyRow).1
               candles_back := p2 - p
               pen_atr := pen_atr })

/-! ## SignalRunner state (`bot/state.py`, in-memory view) -/

/-- Replace-or-append update of an association list, the semantics of
`d[k] = v` on a Python dict (insertion order preserved, existing key
updated in place). -/
def setKV {α : Type} (l : List (String × α)) (k : String) (v : α) : List (String × α) :=
  match l with
  | [] => [(k, v)]
  | (k', v') :: rest => if k' = k then (k, v) :: rest else (k', v') :: setKV rest k v

/-- The event id string built by `make_event_id` in `bot/reporting.py`
(`f"{symbol}|{dt}|{side}|{round(level, 4)}|{label}"`), modelled as the
tuple of its five rendered components. -/
structure EventId where
  symbol : String
  day : ℤ
  side : Side
  level4 : ℚ
  level_source : Label
deriving DecidableEq

/-- Python 3 `round(q, 4)`: nearest multiple of `1/10000`, ties to even
(exact over `ℚ`; binary-float artifacts of the source are out of scope). -/
def pyRound4 (q : ℚ) : ℚ :=
  let x := q * 10000
  let n := ⌊x⌋
  let r := x - (n : ℚ)
  let m := if r < 1 / 2 then n
    else if r > 1 / 2 then n + 1
    else if n % 2 = 0 then n else n + 1
  (m : ℚ) / 10000

/-- Model of `make_event_id` from `bot/reporting.py`: deterministic in the symbol,
the breakout candle's UTC day, the side, the level rounded to 4 places
and the level label. -/
def make_event_id (symbol : String) (b : BreakoutInfo) : EventId :=
  { symbol := symbol
    day := Int.fdiv b.ts msPerDay
    side := b.side
    level4 := pyRound4 b.level
    level_source := b.level_source }

/-- Model of `PersistentState` from `bot/state.py`, the in-memory view used by the
decision logic (event ids structurally, timestamps in epoch ms; the
passthrough `extra` mapping is not read or written by the runner and is
modelled in the serialization layer below). -/
structure PersistentState where
  armed : Bool
  consec_losses : ℤ
  symbols : List String
  last_events : List (String × EventId)
  last_notified_at : List (String × ℤ)
deriving DecidableEq

/-- The default `PersistentState()`. -/
def defaultState : PersistentState :=
  { armed := false, consec_losses := 0, symbols := [], last_events := [], last_notified_at := [] }

/-! ## SignalRunner (`bot/runner.py`) -/

/-- Model of `SignalCandidate` from `bot/runner.py`. -/
structure SignalCandidate where
  symbol : String
  breakout : BreakoutInfo
  trade : PlannedTrade
deriving DecidableEq

/-- The skip reasons of `process_signal`. -/
inductive SkipReason where
  | positions (cap : ℤ)
  | balance
  | qty
  | order
deriving DecidableEq

/-- The suffix appended to the rendered signal message by each branch of
`process_signal`. -/
inductive MsgSuffix where
  | dryRun
  | skip (r : SkipReason)
  | balanceError (e : String)
  | orderSent (qty : ℚ)
  | orderError (e : String)
deriving DecidableEq

/-- The decision message (`format_signal_message` output plus branch
suffix), modelled structurally by the data it renders. -/
structure Msg where
  symbol : String
  trade : PlannedTrade
  breakout : BreakoutInfo
  suffix : MsgSuffix
deriving DecidableEq

/-- Model of `SignalDecision` from `bot/runner.py`. -/
structure SignalDecision where
  symbol : String
  message : Msg
  executed : Bool
  skip_reason : Option SkipReason
deriving DecidableEq

/-- The configuration options read by `process_signal`. -/
structure RunnerCfg where
  dedupByBreakout : Bool
  cooldownHours : ℚ
  dryRun : Bool
  maxOpenPositions : ℤ
  riskPct : ℚ

/-- The collaborators and ambient inputs of one `process_signal` call:
the clock, the exchange position count, the balance fetch outcome
(`Except.error` = the caught exception), quantity rounding
(`amount_to_precision`, exceptions swallowed by the source), and the
bracket-order outcome (`Except.error` = the caught exception). -/
structure Env where
  cfg : RunnerCfg
  now : ℤ
  openPositions : ℤ
  balance : Except String ℚ
  roundQty : ℚ → ℚ
  orderResult : Except String Unit

/-- Model of `FalseBreakoutRunner._cooldown_passed`: no cooldown configured, no
(or falsy-zero) previous notification, or enough time elapsed. -/
def cooldown_passed (env : Env) (state : PersistentState) (symbol : String) : Bool :=
  if env.cfg.cooldownHours ≤ 0 then true
  else
    match state.last_notified_at.lookup symbol with
    | none => true
    | some t =>
      if t = 0 then true
      else decide ((env.now : ℚ) - (t : ℚ) ≥ env.cfg.cooldownHours * 3600000)

/-- Model of `calc_qty_from_risk` from `bot/risk.py`. -/
def calc_qty_from_risk (roundQty : ℚ → ℚ) (free entry sl risk_pct : ℚ) : ℚ :=
  let risk_usdt := max 0 (free * risk_pct)
  let distance := |entry - sl|
  if risk_usdt ≤ 0 ∨ distance ≤ 0 then 0
  else max 0 (roundQty (risk_usdt / distance))

/-- The observable side effects of one `process_signal` call, in program
order. -/
inductive Effect where
  | loadState
  | saveState (s : PersistentState)
  | queryPositions
  | queryBalance
  | placeOrder
deriving DecidableEq

/-- Result of one `process_signal` call: the state left in the store, the
returned decision (`none` = suppressed), and the effect trace. -/
structure ProcResult where
  state : PersistentState
  decision : Option SignalDecision
  trace : List Effect
deriving DecidableEq

/-- The commit of `process_signal` (runner.py lines 113–114): record the
event id and the notification time for the symbol. -/
def commitState (c : SignalCandidate) (env : Env) (state : PersistentState) : PersistentState :=
  { state with
    last_events := setKV state.last_events c.symbol (make_event_id c.symbol c.breakout)
    last_notified_at := setKV state.last_notified_at c.symbol env.now }

/-- Everything `process_signal` does after the commit has been saved:
dry-run return, position cap, balance fetch, sizing, order submission. -/
def executeAfterCommit (env : Env) (c : SignalCandidate) (st : PersistentState) : ProcResult :=
  let saved : List Effect := [Effect.loadState, Effect.saveState st]
  let base := fun sfx => { symbol := c.symbol, trade := c.trade, breakout := c.breakout
                           suffix := sfx : Msg }
  if env.cfg.dryRun then
    { state := st
      decision := some { symbol := c.symbol, message := base MsgSuffix.dryRun
                         executed := false, skip_reason := none }
      trace := saved }
  else if env.cfg.maxOpenPositions > 0 ∧ env.openPositions ≥ env.cfg.maxOpenPositions then
    { state := st
      decision := some { symbol := c.symbol
                         message := base (MsgSuffix.skip (SkipReason.positions env.cfg.maxOpenPositions))
                         executed := false
                         skip_reason := some (SkipReason.positions env.cfg.maxOpenPositions) }
      trace := saved ++ [Effect.queryPositions] }
  else
    let posEff : List Effect := if env.cfg.maxOpenPositions > 0 then [Effect.queryPositions] else []
    match env.balance with
    | Except.error e =>
      { state := st
        decision := some { symbol := c.symbol, message := base (MsgSuffix.balanceError e)
                           executed := false, skip_reason := some SkipReason.balance }
        trace := saved ++ posEff ++ [Effect.queryBalance] }
    | Except.ok free =>
      let qty := calc_qty_from_risk env.roundQty free c.trade.entry c.trade.sl env.cfg.riskPct
      if qty ≤ 0 then
        { state := st
          decision := some { symbol := c.symbol, message := base (MsgSuffix.skip SkipReason.qty)
                             executed := false, skip_reason := some SkipReason.qty }
          trace := saved ++ posEff ++ [Effect.queryBalance] }
      else
        match env.orderResult with
        | Except.ok _ =>
          { state := st
            decision := some { symbol := c.symbol, message := base (MsgSuffix.orderSent qty)
                               executed := true, skip_reason := none }
            trace := saved ++ posEff ++ [Effect.queryBalance, Effect.placeOrder] }
        | Except.error e =>
          { state := st
            decision := some { symbol := c.symbol, message := base (MsgSuffix.orderError e)
                               executed := false, skip_reason := some SkipReason.order }
            trace := saved ++ posEff ++ [Effect.queryBalance, Effect.placeOrder] }

/-- Model of `FalseBreakoutRunner.process_signal` from `bot/runner.py`: load the
state, suppress on duplicate event id or active cooldown, otherwise
commit the new event id and notification time, save, and only then act. -/
def process_signal (env : Env) (c : SignalCandidate) (stored : PersistentState) : ProcResult :=
  let event_id := make_event_id c.symbol c.breakout
  if env.cfg.dedupByBreakout = true ∧ stored.last_events.lookup c.symbol = some event_id then
    { state := stored, decision := none, trace := [Effect.loadState] }
  else if cooldown_passed env stored c.symbol = false then
    { state := stored, decision := none, trace := [Effect.loadState] }
  else
    executeAfterCommit env c (commitState c env stored)

/-! ## StateStore serialization (`bot/state.py`) -/

/-- JSON values, the payloads `json.load` can produce. -/
inductive JVal where
  | null
  | bool (b : Bool)
  | int (n : ℤ)
  | str (s : String)
  | arr (items : List JVal)
  | obj (entries : List (String × JVal))

/-- Python truthiness of a JSON value (`bool(x)`). -/
def pyTruthy : JVal → Bool
  | JVal.null => false
  | JVal.bool b => b
  | JVal.int n => decide (n ≠ 0)
  | JVal.str s => decide (s ≠ "")
  | JVal.arr items => !items.isEmpty
  | JVal.obj entries => !entries.isEmpty

/-- Python `x or d`. -/
def pyOr (x d : JVal) : JVal :=
  if pyTruthy x then x else d

/-- Python `int(x)` on a JSON value; `none` models the raised
`TypeError`/`ValueError`.  String parsing is modelled by
`String.toInt?` after stripping surrounding whitespace (Python also
accepts forms such as `"+5"` or `"1_0"`; none of the results below
depend on those). -/
def pyInt : JVal → Option ℤ
  | JVal.bool b => some (if b then 1 else 0)
  | JVal.int n => some n
  | JVal.str s => s.trim.toInt?
  | _ => none

/-- Python `list(x)` as used on the `symbols` field; only an actual JSON
array converts (`list` of a string or dict, which cannot round-trip the
schema anyway, is modelled as failure). -/
def pyList : JVal → Option (List JVal)
  | JVal.arr items => some items
  | _ => none

/-- Python `dict(x)`; only a JSON object converts, anything else raises. -/
def pyDict : JVal → Option (List (String × JVal))
  | JVal.obj entries => some entries
  | _ => none

/-- The serialization-layer view of `PersistentState`: field values are
kept as the JSON values Python would store in the (untyped at runtime)
dataclass slots. -/
structure RawState where
  armed : Bool
  consec_losses : ℤ
  symbols : List JVal
  last_events : List (String × JVal)
  last_notified_at : List (String × JVal)
  extra : List (String × JVal)

/-- Model of `known_keys` from `PersistentState.from_dict`. -/
def knownKeys : List String :=
  ["armed", "consec_losses", "symbols", "last_events", "last_notified_at"]

/-- The comprehension filter of `from_dict`: `k not in known_keys`. -/
def isExtraKey (kv : String × JVal) : Bool := !(knownKeys.contains kv.1)

/-- Model of `PersistentState.from_dict` from `bot/state.py`: `data = dict(payload
or {})`, unknown keys go verbatim to `extra`, known fields are coerced;
`none` models an exception escaping a coercion. -/
def from_dict (payload : JVal) : Option RawState := do
  let data ← pyDict (pyOr payload (JVal.obj []))
  let get := fun (k : String) (d : JVal) => (data.lookup k).getD d
  let extra := data.filter isExtraKey
  let cl ← pyInt (pyOr (get "consec_losses" (JVal.int 0)) (JVal.int 0))
  let syms ← pyList (pyOr (get "symbols" (JVal.arr [])) (JVal.arr []))
  let evs ← pyDict (pyOr (get "last_events" (JVal.obj [])) (JVal.obj []))
  let notif ← pyDict (pyOr (get "last_notified_at" (JVal.obj [])) (JVal.obj []))
  pure { armed := pyTruthy (get "armed" (JVal.bool false))
         consec_losses := cl
         symbols := syms
         last_events := evs
         last_notified_at := notif
         extra := extra }

/-- Model of `PersistentState.to_dict` from `bot/state.py`: `asdict(self)` gives
the five known fields, `extra` is popped, and `payload.update(extra)`
writes the extension entries on top. -/
def to_dict (st : RawState) : List (String × JVal) :=
  let payload : List (String × JVal) :=
    [("armed", JVal.bool st.armed),
     ("consec_losses", JVal.int st.consec_losses),
     ("symbols", JVal.arr st.symbols),
     ("last_events", JVal.obj st.last_events),
     ("last_notified_at", JVal.obj st.last_notified_at)]
  st.extra.foldl (fun acc kv => setKV acc kv.1 kv.2) payload

/-- The default `PersistentState()` of the serialization layer. -/
def defaultRawState : RawState :=
  { armed := false, consec_losses := 0, symbols := [], last_events := []
    last_notified_at := [], extra := [] }

/-- What the underlying state file yields: an unreadable path, malformed
JSON, or a parsed JSON document. -/
inductive FileRead where
  | missing
  | unreadable
  | badJson
  | content (v : JVal)

/-- Model of `StateStore.load` from `bot/state.py`: any exception while opening or
JSON-decoding the file yields the default state; a successfully decoded
document is handed to `from_dict` outside the `try`, so a coercion
failure there propagates (`none`). -/
def load_state : FileRead → Option RawState
  | FileRead.missing => some defaultRawState
  | FileRead.unreadable => some defaultRawState
  | FileRead.badJson => some defaultRawState
  | FileRead.content v => from_dict v

/-! ## Concrete inputs used by the witness theorems -/

/-- Concrete breakout used to witness C2. -/
def c2Breakout : BreakoutInfo :=
  { side := Side.long, level := 1000
    level_source := { isHigh := false, isPrevDay := true, day := 0 }
    level_age := 1, idx := 0, ts := 0, next_idx := some 1, next_open := some 1001
    break_pct := 1 / 200, close_back_pct := 1 / 2000
    candle_open := 1002, candle_high := 1003, candle_low := 995
    candle_close := 1000, volume := 10, volume_ma := 10, wick_price := 995 }

/-- Configuration used to witness C2 (the documented defaults). -/
def c2Cfg : PlanCfg :=
  { entryMode := EntryMode.next_open, entryUnderfillPct := 1 / 1000
    stopMode := StopMode.wick, stopWickTicks := 3, stopLevelPct := 5 / 1000, rr := 3 }

/-- The plan `plan_trade` produces on the C2 witness inputs. -/
def c2Plan : PlannedTrade :=
  { side := Side.long, entry := 1001, sl := 992, tp := 1028
    meta := { level := 1000, level_source := { isHigh := false, isPrevDay := true, day := 0 }
              break_pct := 1 / 200, close_back_pct := 1 / 2000
              volume_ratio := some 1, candle_ts := 0 } }

/-- Concrete series for the C5 witness. -/
def c5Series : List Candle := [dummyCandle, dummyCandle, dummyCandle]

/-- Concrete environment: dry-run mode, dedup off, no cooldown. -/
def envDry : Env :=
  { cfg := { dedupByBreakout := false, cooldownHours := 0, dryRun := true
             maxOpenPositions := 0, riskPct := 1 / 100 }
    now := 1700000000000, openPositions := 0, balance := Except.ok 1000
    roundQty := fun q => q, orderResult := Except.ok () }

/-- Concrete candidate fed to the runner theorems. -/
def candEx : SignalCandidate := { symbol := "ETHUSDT", breakout := c2Breakout, trade := c2Plan }

/-- Same environment as `envDry` but with dedup enabled. -/
def envDedup : Env := { envDry with cfg := { envDry.cfg with dedupByBreakout := true } }

/-- Stored state that does track the processed symbol. -/
def c7Stored : PersistentState := { defaultState with symbols := ["ETHUSDT"] }

/-- Concrete payload with an extension field for the C9 witness. -/
def c9Payload : List (String × JVal) :=
  [("armed", JVal.bool true), ("zzz", JVal.str "keep")]

/-- The state `from_dict` produces on the C9 witness payload. -/
def c9State : RawState := (from_dict (JVal.obj c9Payload)).getD defaultRawState

/-- Scanner configuration for the C6 comparison (defaults, volume ratio
relaxed to 1). -/
def c6Cfg : ScanCfg :=
  { penetrationMinPct := 1 / 1000, penetrationMaxPct := 7 / 1000
    closeBackMaxPct := 3 / 1000, volumeMaxRatio := 1, volumeMaLength := 1 }

/-- A single-candle false breakout: the wick pierces the level and the
same candle closes back on it. -/
def c6Candle : Candle := { ts := 0, o := 1002, h := 1003, l := 995, c := 1000, v := 10 }

/-- The pierced level (a prior-day low). -/
def c6Level : LevelCandidate :=
  { value := 1000, side := Side.long, ts := 0
    label := { isHigh := false, isPrevDay := true, day := 0 }, age := 1 }

/-! ## Helper lemmas -/

lemma lookup_setKV_self {α : Type} (l : List (String × α)) (k : String) (v : α) :
    (setKV l k v).lookup k = some v := by
  induction l with
  | nil => simp [setKV, List.lookup]
  | cons hd tl ih =>
    obtain ⟨k', v'⟩ := hd
    by_cases hk : k' = k
    · simp [setKV, hk, List.lookup]
    · have hbeq : (k == k') = false := by
        simp only [beq_eq_false_iff_ne, ne_eq]
        exact fun h => hk h.symm
      simp [setKV, if_neg hk, List.lookup, hbeq, ih]

lemma mem_keys_setKV {α : Type} (l : List (String × α)) (k k' : String) (v : α)
    (h : k' ∈ (setKV l k v).map Prod.fst) : k' ∈ l.map Prod.fst ∨ k' = k := by
  induction l with
  | nil => simpa [setKV] using h
  | cons hd tl ih =>
    obtain ⟨k0, v0⟩ := hd
    by_cases hk : k0 = k
    · rw [setKV, if_pos hk] at h
      simp only [List.map_cons, List.mem_cons] at h ⊢
      rcases h with h | h
      · exact Or.inr h
      · exact Or.inl (Or.inr h)
    · rw [setKV, if_neg hk] at h
      simp only [List.map_cons, List.mem_cons] at h ⊢
      rcases h with h | h
      · exact Or.inl (Or.inl h)
      · rcases ih h with h' | h'
        · exact Or.inl (Or.inr h')
        · exact Or.inr h'

/-! ## C2: TradePlanner risk positivity -/

/-- C2.  Whenever `plan_trade` returns a plan, the plan keeps the
breakout's side and its risk distance is strictly positive: entry above
stop for long, stop above entry for short (finiteness is automatic over
`ℚ`); an entry/stop pair with non-positive risk is rejected by the
`risk <= 0` guard, which is exactly the hypothesis-free contrapositive of
this statement. -/
theorem plan_trade_positive_risk (cfg : PlanCfg) (b : BreakoutInfo) (tick_size : ℚ)
    (p : PlannedTrade) (h : plan_trade cfg b tick_size = some p) :
    p.side = b.side ∧ 0 < p.risk_amount ∧
    (b.side = Side.long → p.sl < p.entry) ∧ (b.side = Side.short → p.entry < p.sl) := by
  simp only [plan_trade] at h
  split at h
  · exact absurd h (by simp)
  · rename_i hrisk
    rw [Option.some.injEq] at h
    subst h
    cases hs : b.side
    case long =>
      simp only [hs] at hrisk
      push_neg at hrisk
      refine ⟨rfl, ?_, fun _ => ?_, fun hco => absurd hco (by decide)⟩
      · simp only [PlannedTrade.risk_amount]
        linarith
      · dsimp only
        linarith
    case short =>
      simp only [hs] at hrisk
      push_neg at hrisk
      refine ⟨rfl, ?_, fun hco => absurd hco (by decide), fun _ => ?_⟩
      · simp only [PlannedTrade.risk_amount]
        linarith
      · dsimp only
        linarith

/-- Witness for C2 at a concrete accepted breakout. -/
theorem plan_trade_positive_risk_witness :
    c2Plan.side = c2Breakout.side ∧ 0 < c2Plan.risk_amount ∧
    (c2Breakout.side = Side.long → c2Plan.sl < c2Plan.entry) ∧
    (c2Breakout.side = Side.short → c2Plan.entry < c2Plan.sl) :=
  plan_trade_positive_risk c2Cfg c2Breakout 1 c2Plan (by
    norm_num [plan_trade, planEntryRaw, resolveTick, planStopRaw, adjustEntry,
      c2Cfg, c2Breakout, c2Plan])

/-! ## C8: TrendClassifier substitution on short history -/

lemma smaLast_eq_none (closes : List ℚ) (w : ℕ) (h1 : 1 ≤ closes.length)
    (h2 : closes.length < w) : smaLast closes w = none := by
  simp only [smaLast]
  rw [if_neg (by omega), if_pos (by omega)]

/-- C8.  When a close series is shorter than its SMA window, the last SMA
value is undefined and `detect_trend` substitutes the last close for it,
which makes the `>=` comparison trivially true: the D1 bias is forced to
`up`, and the same substitution policy applied to both undefined H4 SMAs
forces the H4 bias to `up`.  (On an empty series the source raises
instead; hence the nonemptiness hypotheses.) -/
theorem detect_trend_substitutes_last_close (cfg : TrendCfg) (d1 h4 : List ℚ)
    (hd1 : d1 ≠ []) (hh4 : h4 ≠ []) :
    (d1.length < cfg.d1Sma → (detect_trend cfg d1 h4).map Trend.d1 = some Bias.up)
  ∧ (h4.length < cfg.h4Fast → h4.length < cfg.h4Slow →
      (detect_trend cfg d1 h4).map Trend.h4 = some Bias.up) := by
  obtain ⟨a, ha⟩ := Option.isSome_iff_exists.mp (List.getLast?_isSome.mpr hd1)
  obtain ⟨b4, hb⟩ := Option.isSome_iff_exists.mp (List.getLast?_isSome.mpr hh4)
  have hlen1 : 1 ≤ d1.length := List.length_pos.mpr hd1
  have hlen4 : 1 ≤ h4.length := List.length_pos.mpr hh4
  constructor
  · intro hw
    simp [detect_trend, ha, hb, smaLast_eq_none d1 cfg.d1Sma hlen1 hw]
  · intro hf hs
    simp [detect_trend, ha, hb, smaLast_eq_none h4 cfg.h4Fast hlen4 hf,
      smaLast_eq_none h4 cfg.h4Slow hlen4 hs]

/-- Witness for C8: two daily bars against a 5-bar window. -/
theorem detect_trend_substitutes_last_close_witness :
    (detect_trend { d1Sma := 5, h4Fast := 5, h4Slow := 5 } [1, 2] [1]).map Trend.d1
      = some Bias.up :=
  (detect_trend_substitutes_last_close { d1Sma := 5, h4Fast := 5, h4Slow := 5 }
    [1, 2] [1] (by decide) (by decide)).1 (by decide)

/-! ## C3: BreakoutScanner, one event per level, sorted output -/

lemma findBreakoutForLevel_nil (cfg : ScanCfg) (lv : LevelCandidate)
    (volMA : ℕ → Option ℚ) : findBreakoutForLevel cfg lv volMA [] = none := rfl

lemma breakoutsPerLevel_of_window_nil (cfg : ScanCfg) (h1 : List Candle)
    (levels : List LevelCandidate) (start_ts : ℤ) (end_ts : Option ℤ)
    (allowed : Option Side) (hw : dayWindow h1 start_ts end_ts = []) :
    breakoutsPerLevel cfg h1 levels start_ts end_ts allowed = [] := by
  unfold breakoutsPerLevel
  rw [hw]
  rw [List.filterMap_eq_nil_iff]
  intro lv _
  split
  · exact findBreakoutForLevel_nil cfg lv _
  · rfl

/-- C3.  `find_false_breakouts_for_day` returns (a sorted arrangement of)
one optional event per side-matching level — hence at most one event per
input level and at most `levels.length` events in total — and the
returned list is sorted by the key `(timestamp, level age)` ascending, so
among simultaneous events the youngest level comes first. -/
theorem find_false_breakouts_one_per_level_sorted (cfg : ScanCfg) (h1 : List Candle)
    (levels : List LevelCandidate) (start_ts : ℤ) (end_ts : Option ℤ)
    (allowed : Option Side) :
    (find_false_breakouts_for_day cfg h1 levels start_ts end_ts allowed).Perm
      (breakoutsPerLevel cfg h1 levels start_ts end_ts allowed)
  ∧ List.Sorted bkLE (find_false_breakouts_for_day cfg h1 levels start_ts end_ts allowed)
  ∧ (find_false_breakouts_for_day cfg h1 levels start_ts end_ts allowed).length
      ≤ levels.length := by
  unfold find_false_breakouts_for_day
  split
  · rename_i hguard
    rcases hguard with h | h
    · have hw : dayWindow h1 start_ts end_ts = [] := by
        rw [h]
        rfl
      rw [breakoutsPerLevel_of_window_nil cfg h1 levels start_ts end_ts allowed hw]
      exact ⟨List.Perm.refl _, List.sorted_nil, by simp⟩
    · have hb : breakoutsPerLevel cfg h1 levels start_ts end_ts allowed = [] := by
        unfold breakoutsPerLevel
        rw [h]
        rfl
      rw [hb]
      exact ⟨List.Perm.refl _, List.sorted_nil, by simp⟩
  · split
    · rename_i hw
      rw [breakoutsPerLevel_of_window_nil cfg h1 levels start_ts end_ts allowed hw]
      exact ⟨List.Perm.refl _, List.sorted_nil, by simp⟩
    · refine ⟨List.perm_insertionSort bkLE _, List.sorted_insertionSort bkLE _, ?_⟩
      rw [(List.perm_insertionSort bkLE _).length_eq]
      unfold breakoutsPerLevel
      exact List.length_filterMap_le _ _

/-! ## C5: LevelCollector shape -/

lemma collectAux_length (d1 : List Candle) (di : ℕ) :
    ∀ m k, (collectAux d1 di k m).length = 2 * m := by
  intro m
  induction m with
  | zero => intro k; rfl
  | succ m ih =>
    intro k
    simp only [collectAux, List.length_cons, ih]
    omega

lemma collectAux_map_age_side (d1 : List Candle) (di : ℕ) :
    ∀ m k, k + m ≤ di →
      (collectAux d1 di k m).map (fun c => (c.age, c.side))
        = (List.range' k m).flatMap (fun t => [(t + 1, Side.short), (t + 1, Side.long)]) := by
  intro m
  induction m with
  | zero => intro k _; rfl
  | succ m ih =>
    intro k hk
    have hage : di - (di - 1 - k) = k + 1 := by omega
    simp only [collectAux, List.map_cons, hage, List.range', List.flatMap_cons]
    rw [ih (k + 1) (by omega)]
    rfl

lemma collectAux_age_bounds (d1 : List Candle) (di : ℕ) :
    ∀ m k, k + m ≤ di → ∀ c ∈ collectAux d1 di k m, k + 1 ≤ c.age ∧ c.age ≤ k + m := by
  intro m
  induction m with
  | zero => intro k _ c hc; cases hc
  | succ m ih =>
    intro k hk c hc
    have hage : di - (di - 1 - k) = k + 1 := by omega
    simp only [collectAux, List.mem_cons] at hc
    rcases hc with hc | hc | hc
    · subst hc
      simp only [hage]
      omega
    · subst hc
      simp only [hage]
      omega
    · have := ih (k + 1) (by omega) c hc
      omega

lemma collectAux_label_prev (d1 : List Candle) (di : ℕ) :
    ∀ m k, ∀ c ∈ collectAux d1 di k m, c.label.isPrevDay = decide (c.age = 1) := by
  intro m
  induction m with
  | zero => intro k c hc; cases hc
  | succ m ih =>
    intro k c hc
    simp only [collectAux, List.mem_cons] at hc
    rcases hc with hc | hc | hc
    · subst hc; rfl
    · subst hc; rfl
    · exact ih (k + 1) c hc

/-- The claim's count formula fails for a `dayIndex` outside the series:
the source guard returns the empty list there. -/
theorem collect_level_candidates_count_fails_out_of_range :
    ¬ ((collect_level_candidates [dummyCandle] 5 3).length = 2 * min 3 5) := by
  decide

/-- C5 (amended to in-range `dayIndex`).  For `dayIndex < |series|`,
`collect_level_candidates` returns exactly `2 * min lookback dayIndex`
candidates: scanning nearest day first, each prior day contributes the
day's high (side short) then the day's low (side long), with the age
sequence `1, 1, 2, 2, ...` (monotonically increasing, in `[1, lookback]`)
and the age-1 labels carrying the `prev_` mark. -/
theorem collect_level_candidates_spec (d1 : List Candle) (day_idx lookback : ℕ)
    (h : day_idx < d1.length) :
    ((collect_level_candidates d1 day_idx lookback).map (fun c => (c.age, c.side))
        = (List.range (min lookback day_idx)).flatMap
            (fun t => [(t + 1, Side.short), (t + 1, Side.long)]))
  ∧ (collect_level_candidates d1 day_idx lookback).length = 2 * min lookback day_idx
  ∧ (∀ c ∈ collect_level_candidates d1 day_idx lookback, 1 ≤ c.age ∧ c.age ≤ lookback)
  ∧ (∀ c ∈ collect_level_candidates d1 day_idx lookback,
        c.label.isPrevDay = decide (c.age = 1)) := by
  unfold collect_level_candidates
  split
  · rename_i hg
    have hz : day_idx = 0 := by
      rcases hg with h0 | h0
      · exact h0
      · omega
    subst hz
    simp
  · have hm : day_idx - (day_idx - lookback) = min lookback day_idx := by omega
    rw [hm]
    refine ⟨?_, collectAux_length d1 day_idx _ 0, ?_, collectAux_label_prev d1 day_idx _ 0⟩
    · rw [List.range_eq_range']
      exact collectAux_map_age_side d1 day_idx (min lookback day_idx) 0 (by omega)
    · intro c hc
      have hb := collectAux_age_bounds d1 day_idx (min lookback day_idx) 0 (by omega) c hc
      omega

/-- Witness for C5 at a concrete series, `dayIndex = 2`, lookback 5. -/
theorem collect_level_candidates_spec_witness :
    (collect_level_candidates c5Series 2 5).length = 2 * min 5 2 :=
  (collect_level_candidates_spec c5Series 2 5 (by decide)).2.1

/-! ## C1/C4/C7: SignalRunner decision processing -/

lemma executeAfterCommit_state (env : Env) (c : SignalCandidate) (st : PersistentState) :
    (executeAfterCommit env c st).state = st := by
  unfold executeAfterCommit
  dsimp only
  repeat' split
  all_goals rfl

lemma executeAfterCommit_trace (env : Env) (c : SignalCandidate) (st : PersistentState) :
    ∃ rest, (executeAfterCommit env c st).trace
      = Effect.loadState :: Effect.saveState st :: rest := by
  unfold executeAfterCommit
  dsimp only
  repeat' split
  all_goals exact ⟨_, rfl⟩

lemma executeAfterCommit_decision_isSome (env : Env) (c : SignalCandidate)
    (st : PersistentState) : ((executeAfterCommit env c st).decision).isSome = true := by
  unfold executeAfterCommit
  dsimp only
  repeat' split
  all_goals rfl

lemma process_signal_cases (env : Env) (c : SignalCandidate) (stored : PersistentState) :
    process_signal env c stored
        = { state := stored, decision := none, trace := [Effect.loadState] }
  ∨ process_signal env c stored = executeAfterCommit env c (commitState c env stored) := by
  unfold process_signal
  dsimp only
  split
  · exact Or.inl rfl
  · split
    · exact Or.inl rfl
    · exact Or.inr rfl

/-- C1.  For a candidate that passes the dedup and cooldown checks, the
new event id and notification timestamp are saved to the store as the
first effect after the load — before the dry-run return, the position-cap
check, the balance query and the order submission — and they are the
final stored values on every path; in particular, when the bracket order
submission fails, the decision is a skip with reason `order` while the
committed state stands (so the same breakout is not retried). -/
theorem process_signal_commits_before_acting (env : Env) (c : SignalCandidate)
    (stored : PersistentState)
    (hdedup : ¬(env.cfg.dedupByBreakout = true ∧
        stored.last_events.lookup c.symbol = some (make_event_id c.symbol c.breakout)))
    (hcool : cooldown_passed env stored c.symbol = true) :
    (∃ rest, (process_signal env c stored).trace
        = Effect.loadState :: Effect.saveState (process_signal env c stored).state :: rest)
  ∧ (process_signal env c stored).state.last_events.lookup c.symbol
      = some (make_event_id c.symbol c.breakout)
  ∧ (process_signal env c stored).state.last_notified_at.lookup c.symbol = some env.now
  ∧ (∀ e free, env.cfg.dryRun = false →
      ¬(env.cfg.maxOpenPositions > 0 ∧ env.openPositions ≥ env.cfg.maxOpenPositions) →
      env.balance = Except.ok free →
      ¬(calc_qty_from_risk env.roundQty free c.trade.entry c.trade.sl env.cfg.riskPct ≤ 0) →
      env.orderResult = Except.error e →
      (process_signal env c stored).decision = some
        { symbol := c.symbol
          message := { symbol := c.symbol, trade := c.trade, breakout := c.breakout
                       suffix := MsgSuffix.orderError e }
          executed := false
          skip_reason := some SkipReason.order }) := by
  have hps : process_signal env c stored
      = executeAfterCommit env c (commitState c env stored) := by
    unfold process_signal
    dsimp only
    rw [if_neg hdedup, if_neg (by simp [hcool])]
  rw [hps]
  refine ⟨?_, ?_, ?_, ?_⟩
  · rw [executeAfterCommit_state]
    exact executeAfterCommit_trace env c (commitState c env stored)
  · rw [executeAfterCommit_state]
    exact lookup_setKV_self stored.last_events c.symbol (make_event_id c.symbol c.breakout)
  · rw [executeAfterCommit_state]
    exact lookup_setKV_self stored.last_notified_at c.symbol env.now
  · intro e free hdry hpos hbal hqty hord
    unfold executeAfterCommit
    dsimp only
    rw [if_neg (by simp [hdry]), if_neg hpos, hbal]
    dsimp only
    rw [if_neg hqty, hord]

/-- Witness for C1: on a fresh state both commits are visible in the
final state. -/
theorem process_signal_commits_before_acting_witness :
    (process_signal envDry candEx defaultState).state.last_events.lookup candEx.symbol
        = some (make_event_id candEx.symbol candEx.breakout)
  ∧ (process_signal envDry candEx defaultState).state.last_notified_at.lookup candEx.symbol
        = some envDry.now :=
  ⟨(process_signal_commits_before_acting envDry candEx defaultState (by decide) (by decide)).2.1,
   (process_signal_commits_before_acting envDry candEx defaultState (by decide) (by decide)).2.2.1⟩

/-- C4.  If a first cycle on a symbol produced any decision (so it
committed its event id), then a second cycle on the same symbol whose
candidate computes the same event id is suppressed entirely when dedup is
enabled: no decision output at all, the state unchanged, and no effect
beyond the state load. -/
theorem dedup_suppresses_duplicate_cycle (env1 env2 : Env) (c1 c2 : SignalCandidate)
    (st0 : PersistentState)
    (hsym : c2.symbol = c1.symbol)
    (hid : make_event_id c2.symbol c2.breakout = make_event_id c1.symbol c1.breakout)
    (hdedup : env2.cfg.dedupByBreakout = true)
    (hfirst : ((process_signal env1 c1 st0).decision).isSome = true) :
    process_signal env2 c2 (process_signal env1 c1 st0).state
      = { state := (process_signal env1 c1 st0).state, decision := none
          trace := [Effect.loadState] } := by
  rcases process_signal_cases env1 c1 st0 with hcase | hcase
  · rw [hcase] at hfirst
    simp at hfirst
  · have hlk : ((process_signal env1 c1 st0).state).last_events.lookup c2.symbol
        = some (make_event_id c2.symbol c2.breakout) := by
      rw [hid, hsym, hcase, executeAfterCommit_state]
      exact lookup_setKV_self st0.last_events c1.symbol (make_event_id c1.symbol c1.breakout)
    set s1 := (process_signal env1 c1 st0).state with hs1
    unfold process_signal
    dsimp only
    rw [if_pos ⟨hdedup, hlk⟩]

/-- Witness for C4: a second identical cycle against the state committed
by a first cycle yields no output. -/
theorem dedup_suppresses_duplicate_cycle_witness :
    process_signal envDedup candEx (process_signal envDry candEx defaultState).state
      = { state := (process_signal envDry candEx defaultState).state, decision := none
          trace := [Effect.loadState] } :=
  dedup_suppresses_duplicate_cycle envDry envDedup candEx candEx defaultState
    rfl rfl rfl (by decide)

/-- The claimed invariant fails: decision processing records the event id
for the processed symbol without ever touching `symbols`, so on a fresh
state (empty `symbols`) the written key is untracked. -/
theorem tracked_symbols_invariant_fails :
    ¬ (∀ k ∈ (process_signal envDry candEx defaultState).state.last_events.map Prod.fst,
         k ∈ (process_signal envDry candEx defaultState).state.symbols) := by
  decide

/-- C7 (amended).  Decision processing never modifies `trackedSymbols`
and only adds the processed symbol to the `lastEventId` keys; the subset
invariant is preserved exactly when the processed symbol is itself
tracked (the code does not enforce this for untracked symbols, see the
counterexample). -/
theorem process_signal_preserves_tracked_subset (env : Env) (c : SignalCandidate)
    (stored : PersistentState)
    (hsub : ∀ k ∈ stored.last_events.map Prod.fst, k ∈ stored.symbols)
    (hc : c.symbol ∈ stored.symbols) :
    ∀ k ∈ (process_signal env c stored).state.last_events.map Prod.fst,
      k ∈ (process_signal env c stored).state.symbols := by
  rcases process_signal_cases env c stored with hcase | hcase <;> rw [hcase]
  · exact hsub
  · rw [executeAfterCommit_state]
    dsimp only [commitState]
    intro k hk
    rcases mem_keys_setKV stored.last_events c.symbol k
        (make_event_id c.symbol c.breakout) hk with h' | h'
    · exact hsub k h'
    · rw [h']
      exact hc

/-- Witness for C7's amended invariant on a tracking state. -/
theorem process_signal_preserves_tracked_subset_witness :
    "ETHUSDT" ∈ (process_signal envDry candEx c7Stored).state.symbols :=
  process_signal_preserves_tracked_subset envDry candEx c7Stored (by decide) (by decide)
    "ETHUSDT" (by decide)

/-! ## C9/C10: StateStore serialization -/

lemma lookup_setKV_ne {α : Type} (l : List (String × α)) (k k' : String) (v : α)
    (h : k' ≠ k) : (setKV l k v).lookup k' = l.lookup k' := by
  induction l with
  | nil => simp [setKV, List.lookup, beq_eq_false_iff_ne.mpr h]
  | cons hd tl ih =>
    obtain ⟨k0, v0⟩ := hd
    by_cases hk : k0 = k
    · subst hk
      rw [setKV, if_pos rfl]
      simp [List.lookup, beq_eq_false_iff_ne.mpr h]
    · rw [setKV, if_neg hk]
      by_cases hk' : k' = k0
      · subst hk'
        simp [List.lookup]
      · simp [List.lookup, beq_eq_false_iff_ne.mpr hk', ih]

lemma lookup_foldl_setKV_notmem {α : Type} (kvs : List (String × α)) :
    ∀ (acc : List (String × α)) (k : String), k ∉ kvs.map Prod.fst →
      (kvs.foldl (fun a kv => setKV a kv.1 kv.2) acc).lookup k = acc.lookup k := by
  induction kvs with
  | nil => intro acc k _; rfl
  | cons hd tl ih =>
    intro acc k hk
    simp only [List.map_cons, List.mem_cons] at hk
    push_neg at hk
    rw [List.foldl_cons, ih _ k hk.2, lookup_setKV_ne _ _ _ _ hk.1]

lemma lookup_foldl_setKV {α : Type} (kvs : List (String × α)) :
    ∀ (acc : List (String × α)) (k : String), (kvs.map Prod.fst).Nodup →
      (kvs.foldl (fun a kv => setKV a kv.1 kv.2) acc).lookup k
        = (kvs.lookup k).or (acc.lookup k) := by
  induction kvs with
  | nil => intro acc k _; rfl
  | cons hd tl ih =>
    intro acc k hnd
    obtain ⟨k0, v0⟩ := hd
    simp only [List.map_cons, List.nodup_cons] at hnd
    rw [List.foldl_cons]
    by_cases hk : k = k0
    · subst hk
      rw [lookup_foldl_setKV_notmem tl _ k hnd.1, lookup_setKV_self]
      simp [List.lookup]
    · rw [ih _ k hnd.2, lookup_setKV_ne _ _ _ _ hk]
      simp [List.lookup, beq_eq_false_iff_ne.mpr hk]

lemma lookup_filter_of_pred {α : Type} (l : List (String × α)) (p : (String × α) → Bool)
    (k : String) (hp : ∀ v : α, p (k, v) = true) :
    (l.filter p).lookup k = l.lookup k := by
  induction l with
  | nil => rfl
  | cons hd tl ih =>
    obtain ⟨k0, v0⟩ := hd
    by_cases hk : k = k0
    · subst hk
      simp [List.filter_cons, hp v0, List.lookup]
    · by_cases hq : p (k0, v0)
      · simp [List.filter_cons, hq, List.lookup, beq_eq_false_iff_ne.mpr hk, ih]
      · simp [List.filter_cons, hq, List.lookup, beq_eq_false_iff_ne.mpr hk, ih]

lemma nodup_keys_filter {α : Type} (l : List (String × α)) (p : (String × α) → Bool)
    (h : (l.map Prod.fst).Nodup) : ((l.filter p).map Prod.fst).Nodup :=
  List.Nodup.sublist ((List.filter_sublist l).map Prod.fst) h

lemma pyDict_pyOr_obj (es : List (String × JVal)) :
    pyDict (pyOr (JVal.obj es) (JVal.obj [])) = some es := by
  cases es with
  | nil => rfl
  | cons h t => rfl

lemma from_dict_extra (entries : List (String × JVal)) (st : RawState)
    (h : from_dict (JVal.obj entries) = some st) :
    st.extra = entries.filter isExtraKey := by
  simp only [from_dict, pyDict_pyOr_obj, Option.bind_eq_bind, Option.some_bind,
    Option.bind_eq_some, Option.pure_def] at h
  obtain ⟨cl, _, syms, _, evs, _, notif, _, hst⟩ := h
  rw [Option.some_inj] at hst
  rw [← hst]

/-- C9.  Unknown/extension fields round-trip unchanged through
`from_dict` / `to_dict`: for any JSON-object payload (unique keys, as
`json.load` produces) that deserializes successfully, every key outside
the known schema looks up to the same value in the re-serialized mapping
as in the original payload. -/
theorem from_dict_to_dict_roundtrips_extra (entries : List (String × JVal))
    (st : RawState) (k : String)
    (hnodup : (entries.map Prod.fst).Nodup)
    (hk : k ∉ knownKeys)
    (h : from_dict (JVal.obj entries) = some st) :
    (to_dict st).lookup k = entries.lookup k := by
  have hex := from_dict_extra entries st h
  have h5 : k ≠ "armed" ∧ k ≠ "consec_losses" ∧ k ≠ "symbols" ∧ k ≠ "last_events" ∧
      k ≠ "last_notified_at" := by
    simpa [knownKeys] using hk
  have hcontains : knownKeys.contains k = false := by
    simp [knownKeys, h5.1, h5.2.1, h5.2.2.1, h5.2.2.2.1, h5.2.2.2.2]
  unfold to_dict
  rw [lookup_foldl_setKV st.extra _ k
      (by rw [hex]; exact nodup_keys_filter entries isExtraKey hnodup)]
  have hkn : (([("armed", JVal.bool st.armed),
      ("consec_losses", JVal.int st.consec_losses),
      ("symbols", JVal.arr st.symbols),
      ("last_events", JVal.obj st.last_events),
      ("last_notified_at", JVal.obj st.last_notified_at)] :
        List (String × JVal)).lookup k) = none := by
    simp [List.lookup, beq_eq_false_iff_ne.mpr h5.1, beq_eq_false_iff_ne.mpr h5.2.1,
      beq_eq_false_iff_ne.mpr h5.2.2.1, beq_eq_false_iff_ne.mpr h5.2.2.2.1,
      beq_eq_false_iff_ne.mpr h5.2.2.2.2]
  rw [hkn, hex, lookup_filter_of_pred entries isExtraKey k
      (fun v => by simpa [isExtraKey] using hk)]
  cases entries.lookup k <;> rfl

/-- Witness for C9: the extension key `"zzz"` survives the round trip. -/
theorem from_dict_to_dict_roundtrips_extra_witness :
    (to_dict c9State).lookup "zzz" = c9Payload.lookup "zzz" :=
  from_dict_to_dict_roundtrips_extra c9Payload c9State "zzz" (by decide) (by decide) rfl

/-- The "never raises" half of the claim fails: a readable file with
well-formed JSON whose `consec_losses` is a non-empty list makes
`int(... or 0)` raise inside `from_dict`, outside the `try` of `load`, so
the error propagates instead of yielding the default state. -/
theorem load_state_raises_on_bad_coercion :
    load_state (FileRead.content (JVal.obj [("consec_losses", JVal.arr [JVal.null])]))
      = none := rfl

/-- C10 (amended).  For every file-level failure — missing, unreadable,
or malformed JSON — `load` swallows the error and returns the default
`PersistentState` (armed false, zero losses, empty symbols and mappings),
silently resetting dedup/cooldown history; a successfully decoded
document however is passed to `from_dict`, whose coercion errors
propagate. -/
theorem load_state_defaults_on_file_errors :
    load_state FileRead.missing = some defaultRawState
  ∧ load_state FileRead.unreadable = some defaultRawState
  ∧ load_state FileRead.badJson = some defaultRawState
  ∧ ∀ v, load_state (FileRead.content v) = from_dict v :=
  ⟨rfl, rfl, rfl, fun _ => rfl⟩

/-! ## C6: ReplayHarness vs the live pipeline -/

lemma legacy_smaLast_eq (closes : List ℚ) (w : ℕ) :
    legacy_smaLast closes w = smaLast closes w := by
  unfold legacy_smaLast smaLast
  rcases Nat.eq_zero_or_pos w with h | h
  · subst h
    simp
  · have hmax : max 1 w = w := by omega
    rw [hmax]

/-- The two detection stages disagree on the same day of data: the live
scanner accepts the single-candle pattern (wick pierce and same-candle
close-back), while the backtest's `_first_fakeout_in_day` requires the
close-back on a strictly later bar and finds nothing. -/
theorem replay_detection_differs_from_live :
    (find_false_breakouts_for_day c6Cfg [c6Candle] [c6Level] 0 none (some Side.long)).length = 1
  ∧ first_fakeout_in_day [(0, c6Candle)] 1000 Side.long 3 (fun _ => none) = none := by
  constructor
  · norm_num [find_false_breakouts_for_day, dayWindow, maxTs, breakoutsPerLevel,
      volume_ma_at, findBreakoutForLevel, sideOk, c6Cfg, c6Candle, c6Level,
      List.insertionSort, List.enum, List.enumFrom, List.filterMap]
  · rfl

/-- C6 (amended).  Of the live pipeline's four stages the backtest shares
only the trend classifier (`core/backtest.py` resolves `detect_trend`
against the legacy `core/strategy.py`, whose code coincides with the
package version): the two trend stages agree on all inputs, while the
breakout-detection stages differ (see the companion counterexample), the
backtest sources its level from the previous day's extreme only, and its
trade construction is the legacy ATR-based `plan_trade`. -/
theorem replay_trend_stage_matches_live (cfg : TrendCfg) (d1 h4 : List ℚ) :
    legacy_detect_trend cfg d1 h4 = detect_trend cfg d1 h4 := by
  unfold legacy_detect_trend detect_trend
  simp only [legacy_smaLast_eq]
